import Mathlib

/-!
Shallow embedding of the indicator / signal-detection core of the criptoAPP
repository (src/script.js).  JavaScript numbers are modelled by `JsNum`:
exact rationals plus the IEEE special values NaN and ±Infinity, together with
the JavaScript `undefined` value (which out-of-range array reads produce and
which behaves as NaN once it enters arithmetic or a comparison).
-/

namespace CriptoApp

/-- Model of a JavaScript numeric value as it flows through the indicator
core: a finite number (exact rational idealisation), NaN, a signed infinity
(`inf true` is +∞), or `undefined` from an out-of-range array read. -/
inductive JsNum where
  | num : ℚ → JsNum
  | nan : JsNum
  | inf : Bool → JsNum
  | undefined : JsNum
deriving DecidableEq

/-- JavaScript unary minus. -/
def jsNeg : JsNum → JsNum
  | .num a => .num (-a)
  | .nan => .nan
  | .inf p => .inf (!p)
  | .undefined => .nan

/-- JavaScript `Math.abs`. -/
def jsAbs : JsNum → JsNum
  | .num a => .num |a|
  | .nan => .nan
  | .inf _ => .inf true
  | .undefined => .nan

/-- JavaScript addition (`undefined` coerces to NaN; NaN propagates;
∞ + (−∞) is NaN). -/
def jsAdd : JsNum → JsNum → JsNum
  | .nan, _ => .nan
  | .undefined, _ => .nan
  | _, .nan => .nan
  | _, .undefined => .nan
  | .num a, .num b => .num (a + b)
  | .inf p, .inf q => if p = q then .inf p else .nan
  | .inf p, .num _ => .inf p
  | .num _, .inf p => .inf p

/-- JavaScript subtraction. -/
def jsSub (a b : JsNum) : JsNum := jsAdd a (jsNeg b)

/-- JavaScript multiplication (0 · ∞ is NaN). -/
def jsMul : JsNum → JsNum → JsNum
  | .nan, _ => .nan
  | .undefined, _ => .nan
  | _, .nan => .nan
  | _, .undefined => .nan
  | .num a, .num b => .num (a * b)
  | .inf p, .inf q => .inf (p == q)
  | .inf p, .num b => if b = 0 then .nan else .inf (p == decide (0 < b))
  | .num a, .inf p => if a = 0 then .nan else .inf (p == decide (0 < a))

/-- JavaScript division: a nonzero finite number divided by 0 gives a signed
infinity, 0/0 gives NaN, finite/∞ gives 0, ∞/∞ gives NaN. -/
def jsDiv : JsNum → JsNum → JsNum
  | .nan, _ => .nan
  | .undefined, _ => .nan
  | _, .nan => .nan
  | _, .undefined => .nan
  | .num a, .num b =>
      if b = 0 then (if a = 0 then .nan else .inf (decide (0 < a))) else .num (a / b)
  | .num _, .inf _ => .num 0
  | .inf p, .num b => .inf (p == decide (0 ≤ b))
  | .inf _, .inf _ => .nan

/-- JavaScript strict less-than: false whenever an operand is NaN or
`undefined`. -/
def jsLt : JsNum → JsNum → Bool
  | .nan, _ => false
  | .undefined, _ => false
  | _, .nan => false
  | _, .undefined => false
  | .num a, .num b => decide (a < b)
  | .num _, .inf p => p
  | .inf p, .num _ => !p
  | .inf p, .inf q => !p && q

/-- JavaScript less-than-or-equal: false whenever an operand is NaN or
`undefined`. -/
def jsLe : JsNum → JsNum → Bool
  | .nan, _ => false
  | .undefined, _ => false
  | _, .nan => false
  | _, .undefined => false
  | .num a, .num b => decide (a ≤ b)
  | .num _, .inf p => p
  | .inf p, .num _ => !p
  | .inf p, .inf q => !p || q

/-- JavaScript strict greater-than. -/
def jsGt (a b : JsNum) : Bool := jsLt b a

/-- JavaScript greater-than-or-equal. -/
def jsGe (a b : JsNum) : Bool := jsLe b a

/-- Reading index `i` of a JavaScript array of numbers: out-of-range reads
give `undefined`. -/
def jsAt (l : List JsNum) (i : ℕ) : JsNum := l.getD i .undefined

/-- Reading index `i` of a JavaScript array of exact rationals. -/
def qAt (l : List ℚ) (i : ℕ) : JsNum :=
  match l[i]? with
  | some q => .num q
  | none => .undefined

/-! ### EMA engine (`calculateEMA` in src/script.js, lines 89–98 / 293–302) -/

/-- One loop iteration of `calculateEMA`:
`prices[i] * k + emaArray[i-1] * (1 - k)`. -/
def emaStep (k prev p : JsNum) : JsNum :=
  jsAdd (jsMul p k) (jsMul prev (jsSub (.num 1) k))

/-- The smoothing constant `k = 2 / (length + 1)`. -/
def emaK (length : ℕ) : JsNum := .num (2 / ((length : ℚ) + 1))

/-- The push loop of `calculateEMA` for indices `i ≥ 1`, carrying the
previous output element. -/
def emaGo (k : JsNum) : JsNum → List JsNum → List JsNum
  | _, [] => []
  | prev, p :: rest => emaStep k prev p :: emaGo k (emaStep k prev p) rest

/-- `calculateEMA(prices, length)`: seeds `emaArray = [prices[0]]` (which is
`[undefined]` when `prices` is empty, exactly as in JavaScript) and then runs
the recursive smoothing loop. -/
def calculateEMA (prices : List JsNum) (length : ℕ) : List JsNum :=
  match prices with
  | [] => [.undefined]
  | p :: rest => p :: emaGo (emaK length) p rest

/-! ### Data model (spec.md §3, shapes used by src/script.js) -/

/-- A price candle as consumed by the core (`time` epoch millis, `close`,
and the `high`/`low` fields required by the high/low ADX variant). -/
structure Candle where
  time : ℤ
  close : ℚ
  high : ℚ
  low : ℚ
deriving DecidableEq

/-- The bundle produced by `calculateMACD` as consumed by the detectors:
aligned `time`, `macd` and `signal` series. -/
structure MacdBundle where
  time : List ℤ
  macd : List JsNum
  signal : List JsNum
deriving DecidableEq

/-- A detected crossover point `{time, value}`. -/
structure Signal where
  time : ℤ
  value : JsNum
deriving DecidableEq

/-- The pair of ordered buy/sell signal lists returned by the detectors. -/
structure SignalSet where
  buySignals : List Signal
  sellSignals : List Signal
deriving DecidableEq

/-- Adjacent candle pairs `(data[i-1], data[i])` for `i = 1 .. length-1`,
the index range walked by every `for (let i = 1; ...)` loop of the core. -/
def candlePairs (data : List Candle) : List (Candle × Candle) :=
  data.zip data.tail

/-! ### Signal detectors (`detectCrossovers` src/script.js 100–113,
`detectCrossoversWithRSI` src/script.js 373–386) -/

/-- The buy condition of `detectCrossovers` at loop index `i`:
`macd[i] > signal[i] && macd[i-1] <= signal[i-1]`. -/
def buyCondAt (b : MacdBundle) (i : ℕ) : Bool :=
  jsGt (jsAt b.macd i) (jsAt b.signal i) && jsLe (jsAt b.macd (i - 1)) (jsAt b.signal (i - 1))

/-- The sell condition of `detectCrossovers` at loop index `i`:
`macd[i] < signal[i] && macd[i-1] >= signal[i-1]`. -/
def sellCondAt (b : MacdBundle) (i : ℕ) : Bool :=
  jsLt (jsAt b.macd i) (jsAt b.signal i) && jsGe (jsAt b.macd (i - 1)) (jsAt b.signal (i - 1))

/-- The signal record pushed at loop index `i`:
`{ time: macdData.time[i], value: macdData.macd[i] }`. -/
def mkSignal (b : MacdBundle) (i : ℕ) : Signal :=
  ⟨b.time.getD i 0, jsAt b.macd i⟩

/-- The shared shape of both detector loops: walk the index list in order,
append to the buy list when the buy condition holds, otherwise to the sell
list when the sell condition holds. -/
def scanSignals (buyC sellC : ℕ → Bool) (mk : ℕ → Signal) : List ℕ → SignalSet
  | [] => ⟨[], []⟩
  | i :: rest =>
    let s := scanSignals buyC sellC mk rest
    if buyC i then ⟨mk i :: s.buySignals, s.sellSignals⟩
    else if sellC i then ⟨s.buySignals, mk i :: s.sellSignals⟩
    else s

/-- `detectCrossovers(macdData)`: the unfiltered detector, looping
`i = 1 .. macd.length - 1`. -/
def detectCrossovers (b : MacdBundle) : SignalSet :=
  scanSignals (buyCondAt b) (sellCondAt b) (mkSignal b) (List.range' 1 (b.macd.length - 1))

/-- Reading `rsiData[i]` inside a JavaScript relational comparison: a `null`
warm-up entry coerces to 0, an out-of-range read gives `undefined`. -/
def rsiRead (rsi : List (Option JsNum)) (i : ℕ) : JsNum :=
  match rsi[i]? with
  | some (some v) => v
  | some none => .num 0
  | none => .undefined

/-- The buy condition of `detectCrossoversWithRSI` at loop index `i`: the
base crossover condition plus `rsiData[i] < rsiThreshold && adxData[i] >
adxThreshold`. -/
def wBuyCondAt (b : MacdBundle) (rsi : List (Option JsNum)) (adx : List JsNum)
    (rsiThreshold adxThreshold : JsNum) (i : ℕ) : Bool :=
  buyCondAt b i && jsLt (rsiRead rsi i) rsiThreshold && jsGt (jsAt adx i) adxThreshold

/-- The sell condition of `detectCrossoversWithRSI` at loop index `i`: the
base crossover condition plus `rsiData[i] > rsiThreshold && adxData[i] >
adxThreshold`. -/
def wSellCondAt (b : MacdBundle) (rsi : List (Option JsNum)) (adx : List JsNum)
    (rsiThreshold adxThreshold : JsNum) (i : ℕ) : Bool :=
  sellCondAt b i && jsGt (rsiRead rsi i) rsiThreshold && jsGt (jsAt adx i) adxThreshold

/-- `detectCrossoversWithRSI(macdData, rsiData, adxData, rsiThreshold,
adxThreshold)`: the RSI/ADX-gated detector. -/
def detectCrossoversWithRSI (b : MacdBundle) (rsi : List (Option JsNum)) (adx : List JsNum)
    (rsiThreshold adxThreshold : JsNum) : SignalSet :=
  scanSignals (wBuyCondAt b rsi adx rsiThreshold adxThreshold)
    (wSellCondAt b rsi adx rsiThreshold adxThreshold) (mkSignal b)
    (List.range' 1 (b.macd.length - 1))

/-- The loop indices at which the gated detector records a buy signal. -/
def gatedBuyIdx (b : MacdBundle) (rsi : List (Option JsNum)) (adx : List JsNum)
    (rsiThreshold adxThreshold : JsNum) : List ℕ :=
  (List.range' 1 (b.macd.length - 1)).filter (wBuyCondAt b rsi adx rsiThreshold adxThreshold)

/-- The loop indices at which the gated detector records a sell signal. -/
def gatedSellIdx (b : MacdBundle) (rsi : List (Option JsNum)) (adx : List JsNum)
    (rsiThreshold adxThreshold : JsNum) : List ℕ :=
  (List.range' 1 (b.macd.length - 1)).filter (wSellCondAt b rsi adx rsiThreshold adxThreshold)

/-! ### RSI computer (`calculateRSI` in src/script.js, lines 304–340).
The source loop body declares `averageGain`/`averageLoss` as `const` and
never reassigns them, so every iteration computes its `newAverageGain` /
`newAverageLoss` from the unchanged seed averages; each emitted value is
therefore an independent function of the seed and of `gains[i]`/`losses[i]`,
and the loop is embedded as a map over its index range. -/

/-- The `gains` array: for each adjacent pair, the close delta when it is
`>= 0`, else 0. -/
def rsiGains (data : List Candle) : List ℚ :=
  (candlePairs data).map (fun pc =>
    if 0 ≤ pc.2.close - pc.1.close then pc.2.close - pc.1.close else 0)

/-- The `losses` array: for each adjacent pair, 0 when the close delta is
`>= 0`, else its absolute value. -/
def rsiLosses (data : List Candle) : List ℚ :=
  (candlePairs data).map (fun pc =>
    if 0 ≤ pc.2.close - pc.1.close then 0 else |pc.2.close - pc.1.close|)

/-- The seed `averageGain = mean of the first `length` gains` (a JavaScript
division, so `length = 0` gives NaN). -/
def rsiSeedGain (data : List Candle) (length : ℕ) : JsNum :=
  jsDiv (.num (((rsiGains data).take length).sum)) (.num (length : ℚ))

/-- The seed `averageLoss = mean of the first `length` losses`. -/
def rsiSeedLoss (data : List Candle) (length : ℕ) : JsNum :=
  jsDiv (.num (((rsiLosses data).take length).sum)) (.num (length : ℚ))

/-- `newAverageGain = ((averageGain * (length - 1)) + gains[i]) / length`
computed at loop index `i` — always from the seed `averageGain`, because the
source never reassigns it. -/
def rsiAvgGainAt (data : List Candle) (length i : ℕ) : JsNum :=
  jsDiv (jsAdd (jsMul (rsiSeedGain data length) (.num ((length : ℚ) - 1)))
      (qAt (rsiGains data) i)) (.num (length : ℚ))

/-- `newAverageLoss = ((averageLoss * (length - 1)) + losses[i]) / length`
at loop index `i`, from the unchanged seed `averageLoss`. -/
def rsiAvgLossAt (data : List Candle) (length i : ℕ) : JsNum :=
  jsDiv (jsAdd (jsMul (rsiSeedLoss data length) (.num ((length : ℚ) - 1)))
      (qAt (rsiLosses data) i)) (.num (length : ℚ))

/-- The value pushed at loop index `i`:
`100 - (100 / (1 + rs))` with `rs = newAverageGain / newAverageLoss`. -/
def rsiValueAt (data : List Candle) (length i : ℕ) : JsNum :=
  jsSub (.num 100)
    (jsDiv (.num 100) (jsAdd (.num 1) (jsDiv (rsiAvgGainAt data length i) (rsiAvgLossAt data length i))))

/-- `calculateRSI(data, length)`: the loop pushes one value for each
`i = length .. data.length - 1`, then the `while` loop unshifts `null`
entries until the output is as long as `data`. -/
def calculateRSI (data : List Candle) (length : ℕ) : List (Option JsNum) :=
  List.replicate (data.length - (data.length - length)) none ++
    (List.range (data.length - length)).map (fun j => some (rsiValueAt data length (length + j)))

/-! ### ADX computer (`calculateADX` in src/script.js, lines 342–371),
the high/low (Wilder directional movement) variant. -/

/-- The `plusDM` value recorded for one candle step (previous candle `p`,
current candle `c`): `plusDM > minusDM && plusDM > 0 ? plusDM : 0` with the
raw movements `plusDM = c.high - p.high` and `minusDM = p.low - c.low`. -/
def plusDMval (p c : Candle) : ℚ :=
  if c.high - p.high > p.low - c.low ∧ c.high - p.high > 0 then c.high - p.high else 0

/-- The `minusDM` value recorded for one candle step:
`minusDM > plusDM && minusDM > 0 ? minusDM : 0`. -/
def minusDMval (p c : Candle) : ℚ :=
  if p.low - c.low > c.high - p.high ∧ p.low - c.low > 0 then p.low - c.low else 0

/-- The true range recorded for one candle step:
`max(high - low, |high - prevClose|, |low - prevClose|)`. -/
def trueRangeVal (p c : Candle) : ℚ :=
  max (c.high - c.low) (max |c.high - p.close| |c.low - p.close|)

/-- The `plusDMs` array of `calculateADX`. -/
def plusDMs (data : List Candle) : List ℚ :=
  (candlePairs data).map (fun pc => plusDMval pc.1 pc.2)

/-- The `minusDMs` array of `calculateADX`. -/
def minusDMs (data : List Candle) : List ℚ :=
  (candlePairs data).map (fun pc => minusDMval pc.1 pc.2)

/-- The `trueRanges` array of `calculateADX`. -/
def trueRanges (data : List Candle) : List ℚ :=
  (candlePairs data).map (fun pc => trueRangeVal pc.1 pc.2)

/-- `calculateADX(data, length)`: smooth the three raw arrays with the EMA
engine, form the DI lines, the DX series, and smooth the DX series again.
The source returns `calculateEMA(dxs, length)` directly, with no null
padding. -/
def calculateADX (data : List Candle) (length : ℕ) : List JsNum :=
  let smoothedPlusDMs := calculateEMA ((plusDMs data).map .num) length
  let smoothedMinusDMs := calculateEMA ((minusDMs data).map .num) length
  let smoothedTrueRanges := calculateEMA ((trueRanges data).map .num) length
  let plusDis := smoothedPlusDMs.mapIdx (fun i dm =>
    jsMul (jsDiv dm (jsAt smoothedTrueRanges i)) (.num 100))
  let minusDis := smoothedMinusDMs.mapIdx (fun i dm =>
    jsMul (jsDiv dm (jsAt smoothedTrueRanges i)) (.num 100))
  let dxs := plusDis.mapIdx (fun i plusDi =>
    jsMul (jsDiv (jsAbs (jsSub plusDi (jsAt minusDis i))) (jsAdd plusDi (jsAt minusDis i))) (.num 100))
  calculateEMA dxs length

/-! ### Spec-side Wilder RSI, for comparison with `calculateRSI` -/

/-- Modelled from the spec: spec.md §4.3 step 3 prescribes genuinely
recursive Wilder smoothing — the `avgGain`/`avgLoss` produced at one step
are the ones used at the next (`avgGain = ((avgGain*(length-1)) + gain[i]) /
length`, same for `avgLoss`, then `rs = avgGain/avgLoss` and `rsi = 100 -
100/(1+rs)`).  This walks the remaining gain/loss pairs threading the
updated averages through. -/
def rsiWilderGo (length : ℕ) : JsNum → JsNum → List (ℚ × ℚ) → List JsNum
  | _, _, [] => []
  | avgGain, avgLoss, gl :: rest =>
    let nG := jsDiv (jsAdd (jsMul avgGain (.num ((length : ℚ) - 1))) (.num gl.1)) (.num (length : ℚ))
    let nL := jsDiv (jsAdd (jsMul avgLoss (.num ((length : ℚ) - 1))) (.num gl.2)) (.num (length : ℚ))
    jsSub (.num 100) (jsDiv (.num 100) (jsAdd (.num 1) (jsDiv nG nL))) ::
      rsiWilderGo length nG nL rest

/-- Modelled from the spec: the stream of RSI values the spec's recursive
Wilder smoothing produces after the seed, starting from the same seed
averages and consuming the gain/loss pairs from array position `length`
on. -/
def rsiWilderSpecValues (data : List Candle) (length : ℕ) : List JsNum :=
  rsiWilderGo length (rsiSeedGain data length) (rsiSeedLoss data length)
    (((rsiGains data).zip (rsiLosses data)).drop length)

/-! ### Concrete inputs used to instantiate the claims -/

/-- Six candles with closes `0, 4, 2, 2, 1, 1`; the seed averages over the
first two deltas are `avgGain = 2`, `avgLoss = 1`. -/
def rsiDemoCandles : List Candle :=
  [⟨0, 0, 0, 0⟩, ⟨1, 4, 4, 4⟩, ⟨2, 2, 2, 2⟩, ⟨3, 2, 2, 2⟩, ⟨4, 1, 1, 1⟩, ⟨5, 1, 1, 1⟩]

/-- Three candles with strictly rising closes (and highs/lows). -/
def risingCandles : List Candle := [⟨0, 0, 0, 0⟩, ⟨1, 1, 1, 1⟩, ⟨2, 2, 2, 2⟩]

/-- Four candles with strictly rising closes. -/
def risingCandles4 : List Candle := [⟨0, 0, 0, 0⟩, ⟨1, 1, 1, 1⟩, ⟨2, 2, 2, 2⟩, ⟨3, 3, 3, 3⟩]

/-- Three candles with `high`/`low` data for the ADX variant. -/
def adxDemoCandles : List Candle := [⟨0, 1, 2, 0⟩, ⟨1, 2, 3, 1⟩, ⟨2, 3, 4, 2⟩]

/-- A two-point MACD bundle with an upward cross at index 1. -/
def crossDemoBundle : MacdBundle := ⟨[0, 100], [.num (-1), .num 1], [.num 0, .num 0]⟩

/-! ### Lemmas about the JavaScript comparison operators -/

/-- JavaScript `<` is asymmetric: `a < b` being true forces `b < a` false. -/
lemma jsLt_asymm {a b : JsNum} (h : jsLt a b = true) : jsLt b a = false := by
  cases a <;> cases b <;> simp_all [jsLt]
  exact h.le

/-- If JavaScript `a <= b` holds then `b < a` fails. -/
lemma jsLe_not_lt {a b : JsNum} (h : jsLe a b = true) : jsLt b a = false := by
  cases a <;> cases b <;> simp_all [jsLt, jsLe]
  rintro rfl
  simpa using h

/-- Adding JavaScript `undefined` to anything yields NaN. -/
lemma jsAdd_undef_right (x : JsNum) : jsAdd x .undefined = .nan := by
  cases x <;> rfl

/-- NaN divided by anything is NaN. -/
lemma jsDiv_nan_left (x : JsNum) : jsDiv .nan x = .nan := by
  cases x <;> rfl

/-- Anything divided by NaN is NaN. -/
lemma jsDiv_nan_right (x : JsNum) : jsDiv x .nan = .nan := by
  cases x <;> rfl

/-- Adding NaN to anything yields NaN. -/
lemma jsAdd_nan_right (x : JsNum) : jsAdd x .nan = .nan := by
  cases x <;> rfl

/-! ### Characterization of the detector loops -/

/-- The buy list collected by a detector loop is the in-order image of the
indices passing the buy condition. -/
lemma scanSignals_buySignals (buyC sellC : ℕ → Bool) (mk : ℕ → Signal) :
    ∀ l : List ℕ, (scanSignals buyC sellC mk l).buySignals = (l.filter buyC).map mk := by
  intro l
  induction l with
  | nil => rfl
  | cons i rest ih =>
    by_cases hb : buyC i <;> by_cases hs : sellC i <;>
      simp [scanSignals, List.filter_cons, hb, hs, ih]

/-- The sell list collected by a detector loop is the in-order image of the
indices passing the sell condition but failing the buy condition (the
`else if`). -/
lemma scanSignals_sellSignals (buyC sellC : ℕ → Bool) (mk : ℕ → Signal) :
    ∀ l : List ℕ,
      (scanSignals buyC sellC mk l).sellSignals =
        (l.filter (fun i => !buyC i && sellC i)).map mk := by
  intro l
  induction l with
  | nil => rfl
  | cons i rest ih =>
    by_cases hb : buyC i <;> by_cases hs : sellC i <;>
      simp [scanSignals, List.filter_cons, hb, hs, ih]

/-- The base buy and sell crossover conditions cannot hold together, so the
`else if` never hides a sell signal behind a buy signal. -/
lemma sellCond_not_buyCond {b : MacdBundle} {i : ℕ} (h : sellCondAt b i = true) :
    buyCondAt b i = false := by
  rcases Bool.and_eq_true_iff.1 h with ⟨hlt, _⟩
  simp only [buyCondAt, Bool.and_eq_false_iff]
  exact Or.inl (by simpa [jsGt] using jsLt_asymm hlt)

/-- The gated sell condition likewise excludes the gated buy condition. -/
lemma wSellCond_not_wBuyCond {b : MacdBundle} {rsi : List (Option JsNum)} {adx : List JsNum}
    {rth ath : JsNum} {i : ℕ} (h : wSellCondAt b rsi adx rth ath i = true) :
    wBuyCondAt b rsi adx rth ath i = false := by
  rcases Bool.and_eq_true_iff.1 h with ⟨h1, _⟩
  rcases Bool.and_eq_true_iff.1 h1 with ⟨hsell, _⟩
  simp only [wBuyCondAt, Bool.and_eq_false_iff]
  exact Or.inl (Or.inl (sellCond_not_buyCond hsell))

/-- When a raw sell condition excludes the raw buy condition, the effective
sell filter of the loop equals the raw one. -/
lemma filter_effective_sell (buyC sellC : ℕ → Bool)
    (hx : ∀ i, sellC i = true → buyC i = false) (l : List ℕ) :
    l.filter (fun i => !buyC i && sellC i) = l.filter sellC := by
  apply List.filter_congr
  intro i _
  cases hs : sellC i
  · simp
  · simp [hx i hs]

/-! ### Lemmas about the EMA engine -/

/-- The EMA loop emits one value per remaining input value. -/
lemma emaGo_length (k : JsNum) : ∀ (l : List JsNum) (prev : JsNum),
    (emaGo k prev l).length = l.length := by
  intro l
  induction l with
  | nil => intro prev; rfl
  | cons p rest ih => intro prev; simp [emaGo, ih]

/-- Each element of the EMA loop output is the smoothing step applied to its
predecessor in the seeded output and the matching input value. -/
lemma emaGo_getD (k d : JsNum) : ∀ (l : List JsNum) (prev : JsNum) (j : ℕ), j < l.length →
    (emaGo k prev l).getD j d =
      emaStep k ((prev :: emaGo k prev l).getD j d) (l.getD j d) := by
  intro l
  induction l with
  | nil => intro prev j h; simp at h
  | cons p rest ih =>
    intro prev j h
    cases j with
    | zero => simp [emaGo]
    | succ j =>
      simp only [emaGo, List.getD_cons_succ]
      exact ih (emaStep k prev p) j (by simpa using h)

/-- `calculateEMA` on a non-empty input preserves the length. -/
lemma calculateEMA_length_cons (v : JsNum) (l : List JsNum) (L : ℕ) :
    (calculateEMA (v :: l) L).length = (v :: l).length := by
  simp [calculateEMA, emaGo_length]

/-! ### Indexing lemma for the RSI output -/

/-- For an in-range post-warm-up index, the RSI output at position `i` is the
value pushed by loop iteration `i`. -/
lemma calculateRSI_getD (data : List Candle) (L i : ℕ) (h1 : L ≤ i) (h2 : i < data.length) :
    (calculateRSI data L).getD i none = some (rsiValueAt data L i) := by
  have hLn : L ≤ data.length := h1.trans h2.le
  have hrep : data.length - (data.length - L) = L := Nat.sub_sub_self hLn
  rw [calculateRSI, hrep, List.getD_eq_getElem?_getD,
    List.getElem?_append_right (by simpa using h1)]
  rw [List.length_replicate,
    List.getElem?_map (fun j => some (rsiValueAt data L (L + j))) _ (i - L),
    List.getElem?_range (by omega)]
  simp only [Option.map_some', Option.getD_some]
  congr 2
  omega

/-! ### Claim theorems -/

/-- C3: the unfiltered detector emits a buy signal at index `i` iff
`macd[i-1] <= signal[i-1]` and `macd[i] > signal[i]`, and a sell signal at
index `i` iff `macd[i-1] >= signal[i-1]` and `macd[i] < signal[i]`: its two
output lists are exactly the in-order images of the loop indices satisfying
those conditions.  On `macd = [-1,-1,1,1]`, `signal = [0,0,0,0]` exactly one
buy fires, at index 2, and no sell fires. -/
theorem C3_detectCrossovers_characterization :
    (∀ (b : MacdBundle) (i : ℕ),
      buyCondAt b i =
          (jsLe (jsAt b.macd (i - 1)) (jsAt b.signal (i - 1)) &&
            jsGt (jsAt b.macd i) (jsAt b.signal i)) ∧
      sellCondAt b i =
          (jsGe (jsAt b.macd (i - 1)) (jsAt b.signal (i - 1)) &&
            jsLt (jsAt b.macd i) (jsAt b.signal i))) ∧
    (∀ b : MacdBundle,
      (detectCrossovers b).buySignals =
        ((List.range' 1 (b.macd.length - 1)).filter (buyCondAt b)).map (mkSignal b) ∧
      (detectCrossovers b).sellSignals =
        ((List.range' 1 (b.macd.length - 1)).filter (sellCondAt b)).map (mkSignal b)) ∧
    detectCrossovers ⟨[10, 20, 30, 40], [.num (-1), .num (-1), .num 1, .num 1],
        [.num 0, .num 0, .num 0, .num 0]⟩ = ⟨[⟨30, .num 1⟩], []⟩ := by
  refine ⟨fun b i => ⟨Bool.and_comm _ _, Bool.and_comm _ _⟩, fun b => ⟨?_, ?_⟩, by decide⟩
  · exact scanSignals_buySignals _ _ _ _
  · rw [detectCrossovers, scanSignals_sellSignals,
      filter_effective_sell _ _ (fun i h => sellCond_not_buyCond h)]

/-- C5: for a non-empty input and `length ≥ 1`, the EMA output starts with
the first input element exactly and satisfies
`ema[i] = values[i]*k + ema[i-1]*(1-k)` with `k = 2/(length+1)` at every
index `1 ≤ i < length of the input`. -/
theorem C5_ema_recurrence (values : List JsNum) (L : ℕ) (hne : values ≠ []) (hL : 1 ≤ L) :
    (calculateEMA values L).getD 0 .undefined = values.getD 0 .undefined ∧
    ∀ i, 1 ≤ i → i < values.length →
      (calculateEMA values L).getD i .undefined =
        jsAdd (jsMul (values.getD i .undefined) (.num (2 / ((L : ℚ) + 1))))
          (jsMul ((calculateEMA values L).getD (i - 1) .undefined)
            (jsSub (.num 1) (.num (2 / ((L : ℚ) + 1))))) := by
  match values, hne with
  | v :: vs, _ =>
    refine ⟨rfl, ?_⟩
    intro i h1 h2
    match i, h1 with
    | j + 1, _ =>
      have hj : j < vs.length := by simpa using h2
      have hrec := emaGo_getD (emaK L) .undefined vs v j hj
      simp only [calculateEMA, List.getD_cons_succ, Nat.add_sub_cancel]
      rw [hrec]
      rfl

/-- C5 witness: the recurrence instantiated at `values = [1, 2]`,
`length = 1`, `i = 1`. -/
theorem C5_ema_recurrence_witness :
    (calculateEMA [.num 1, .num 2] 1).getD 0 .undefined = JsNum.num 1 ∧
    (calculateEMA [.num 1, .num 2] 1).getD 1 .undefined =
      jsAdd (jsMul (JsNum.num 2) (.num (2 / ((1 : ℚ) + 1))))
        (jsMul ((calculateEMA [.num 1, .num 2] 1).getD 0 .undefined)
          (jsSub (.num 1) (.num (2 / ((1 : ℚ) + 1))))) := by
  have h := C5_ema_recurrence [.num 1, .num 2] 1 (by simp) le_rfl
  exact ⟨h.1, h.2 1 le_rfl (by norm_num)⟩

/-- C6 counterexample: on the empty input the EMA engine does not return an
empty result — JavaScript seeds the output with `prices[0]`, which is
`undefined`, so the result is the one-element list `[undefined]`. -/
theorem C6_ema_empty_counterexample :
    (calculateEMA ([] : List JsNum) 14).length ≠ ([] : List JsNum).length ∧
    calculateEMA ([] : List JsNum) 14 = [JsNum.undefined] :=
  ⟨by simp [calculateEMA], rfl⟩

/-- C6 amended: for every non-empty input the EMA output length equals the
input length, and a one-element input returns exactly that element; the
empty input returns the one-element list `[undefined]` instead of the empty
list. -/
theorem C6_ema_length_amended :
    (∀ (v : JsNum) (l : List JsNum) (L : ℕ),
      (calculateEMA (v :: l) L).length = (v :: l).length) ∧
    (∀ L : ℕ, calculateEMA [] L = [JsNum.undefined]) ∧
    (∀ (v : JsNum) (L : ℕ), calculateEMA [v] L = [v]) :=
  ⟨calculateEMA_length_cons, fun _ => rfl, fun _ _ => rfl⟩

/-- C6 witness: the amended statement instantiated at concrete inputs. -/
theorem C6_ema_length_witness :
    (calculateEMA [JsNum.num 3, JsNum.num 4] 9).length = 2 ∧
    calculateEMA [JsNum.num 3] 9 = [JsNum.num 3] :=
  ⟨C6_ema_length_amended.1 _ _ _, C6_ema_length_amended.2.2 _ _⟩

/-- C4: the gated detector emits signals exactly at the loop indices where
the base crossover condition holds together with the RSI gate
(`rsiData[i] < rsiThreshold` for buy, `> rsiThreshold` for sell) and the ADX
gate (`adxData[i] > adxThreshold`); in particular a crossover with
`adxData[i] <= adxThreshold`, or with the RSI value on the wrong side of the
threshold, produces no signal at that index. -/
theorem C4_gated_detector (b : MacdBundle) (rsi : List (Option JsNum)) (adx : List JsNum)
    (rth ath : JsNum) :
    ((detectCrossoversWithRSI b rsi adx rth ath).buySignals =
        (gatedBuyIdx b rsi adx rth ath).map (mkSignal b) ∧
      (detectCrossoversWithRSI b rsi adx rth ath).sellSignals =
        (gatedSellIdx b rsi adx rth ath).map (mkSignal b)) ∧
    (∀ i, wBuyCondAt b rsi adx rth ath i = true →
      buyCondAt b i = true ∧ jsLt (rsiRead rsi i) rth = true ∧ jsGt (jsAt adx i) ath = true) ∧
    (∀ i, wSellCondAt b rsi adx rth ath i = true →
      sellCondAt b i = true ∧ jsGt (rsiRead rsi i) rth = true ∧ jsGt (jsAt adx i) ath = true) ∧
    (∀ i, jsLe (jsAt adx i) ath = true →
      wBuyCondAt b rsi adx rth ath i = false ∧ wSellCondAt b rsi adx rth ath i = false) ∧
    (∀ i, jsGe (rsiRead rsi i) rth = true → wBuyCondAt b rsi adx rth ath i = false) ∧
    (∀ i, jsLe (rsiRead rsi i) rth = true → wSellCondAt b rsi adx rth ath i = false) := by
  refine ⟨⟨scanSignals_buySignals _ _ _ _, ?_⟩, ?_, ?_, ?_, ?_, ?_⟩
  · rw [detectCrossoversWithRSI, scanSignals_sellSignals,
      filter_effective_sell _ _ (fun i h => wSellCond_not_wBuyCond h)]
    rfl
  · intro i h
    rcases Bool.and_eq_true_iff.1 h with ⟨h1, hadx⟩
    rcases Bool.and_eq_true_iff.1 h1 with ⟨hbase, hrsi⟩
    exact ⟨hbase, hrsi, hadx⟩
  · intro i h
    rcases Bool.and_eq_true_iff.1 h with ⟨h1, hadx⟩
    rcases Bool.and_eq_true_iff.1 h1 with ⟨hbase, hrsi⟩
    exact ⟨hbase, hrsi, hadx⟩
  · intro i h
    have hadx : jsGt (jsAt adx i) ath = false := by
      simpa [jsGt] using jsLe_not_lt h
    exact ⟨by simp [wBuyCondAt, hadx], by simp [wSellCondAt, hadx]⟩
  · intro i h
    have hrsi : jsLt (rsiRead rsi i) rth = false := jsLe_not_lt h
    simp [wBuyCondAt, hrsi]
  · intro i h
    have hrsi : jsGt (rsiRead rsi i) rth = false := by
      simpa [jsGt] using jsLe_not_lt h
    simp [wSellCondAt, hrsi]

/-- C4 witness: an upward cross at index 1 whose ADX value 10 fails the
default threshold 20 is suppressed on both sides. -/
theorem C4_gated_detector_witness :
    jsLe (jsAt [JsNum.num 10, JsNum.num 10] 1) (JsNum.num 20) = true ∧
    wBuyCondAt crossDemoBundle [some (.num 40), some (.num 40)] [.num 10, .num 10]
      (.num 50) (.num 20) 1 = false ∧
    wSellCondAt crossDemoBundle [some (.num 40), some (.num 40)] [.num 10, .num 10]
      (.num 50) (.num 20) 1 = false := by
  have h := (C4_gated_detector crossDemoBundle [some (.num 40), some (.num 40)]
    [.num 10, .num 10] (.num 50) (.num 20)).2.2.2.1 1 (by decide)
  exact ⟨by decide, h.1, h.2⟩

/-- C10: at an index whose RSI entry is the `null` warm-up sentinel, the
buy gate `rsiData[i] < rsiThreshold` is true for any positive threshold
(`null` compares as 0) while the sell gate is false, so the gated buy
condition degenerates to the bare crossover-plus-ADX condition and the
gated sell condition can never hold: during RSI warm-up an upward cross
with sufficient ADX still fires a buy, and no sell can fire. -/
theorem C10_null_rsi_warmup (b : MacdBundle) (rsi : List (Option JsNum)) (adx : List JsNum)
    (rq aq : ℚ) (i : ℕ) (hnull : rsi[i]? = some none) (hpos : 0 < rq) :
    jsLt (rsiRead rsi i) (.num rq) = true ∧
    jsGt (rsiRead rsi i) (.num rq) = false ∧
    wBuyCondAt b rsi adx (.num rq) (.num aq) i =
      (buyCondAt b i && jsGt (jsAt adx i) (.num aq)) ∧
    wSellCondAt b rsi adx (.num rq) (.num aq) i = false ∧
    (detectCrossoversWithRSI b rsi adx (.num rq) (.num aq)).buySignals =
      (gatedBuyIdx b rsi adx (.num rq) (.num aq)).map (mkSignal b) ∧
    i ∉ gatedSellIdx b rsi adx (.num rq) (.num aq) ∧
    (1 ≤ i → i < b.macd.length → buyCondAt b i = true →
      jsGt (jsAt adx i) (.num aq) = true →
      i ∈ gatedBuyIdx b rsi adx (.num rq) (.num aq)) := by
  have hread : rsiRead rsi i = .num 0 := by simp [rsiRead, hnull]
  have hlt : jsLt (rsiRead rsi i) (.num rq) = true := by simp [hread, jsLt, hpos]
  have hgt : jsGt (rsiRead rsi i) (.num rq) = false := by
    simp only [hread, jsGt, jsLt, decide_eq_false_iff_not]
    exact not_lt.2 hpos.le
  have hsell : wSellCondAt b rsi adx (.num rq) (.num aq) i = false := by
    simp [wSellCondAt, hgt]
  refine ⟨hlt, hgt, by simp [wBuyCondAt, hlt], hsell,
    scanSignals_buySignals _ _ _ _, ?_, ?_⟩
  · intro hmem
    exact absurd ((List.mem_filter.1 hmem).2) (by simp [hsell])
  · intro h1 h2 hbase hadx
    refine List.mem_filter.2 ⟨List.mem_range'_1.2 ⟨h1, by omega⟩, ?_⟩
    simp [wBuyCondAt, hlt, hbase, hadx]

/-- C10 witness: warm-up `null` RSI entries with a cross at index 1 and ADX
30: the buy fires and no sell index is selected. -/
theorem C10_null_rsi_warmup_witness :
    1 ∈ gatedBuyIdx crossDemoBundle [none, none] [.num 30, .num 30] (.num 50) (.num 20) ∧
    1 ∉ gatedSellIdx crossDemoBundle [none, none] [.num 30, .num 30] (.num 50) (.num 20) := by
  have h := C10_null_rsi_warmup crossDemoBundle [none, none] [.num 30, .num 30]
    50 20 1 rfl (by norm_num)
  exact ⟨h.2.2.2.2.2.2 (by decide) (by decide) (by decide) (by decide), h.2.2.2.2.2.1⟩

/-- C1: evaluation showing the RSI smoothing is not the claimed recursion.
On closes `0,4,2,2,1,1` with `length = 2` the seed averages are
`avgGain = 2`, `avgLoss = 1`; the source emits 50 at output index 3 because
its loop recomputes the averages from the unchanged seed, whereas the
recursive Wilder smoothing of the claim (the second value of
`rsiWilderSpecValues`) yields 40 there. -/
theorem C1_rsi_smoothing_not_recursive :
    (calculateRSI rsiDemoCandles 2).getD 3 none = some (.num 50) ∧
    (rsiWilderSpecValues rsiDemoCandles 2).getD 1 .nan = .num 40 ∧
    (calculateRSI rsiDemoCandles 2).getD 3 none ≠ some (.num 40) := by
  refine ⟨?_, ?_, ?_⟩
  · norm_num [calculateRSI, rsiValueAt, rsiAvgGainAt, rsiAvgLossAt, rsiSeedGain, rsiSeedLoss,
      rsiGains, rsiLosses, candlePairs, rsiDemoCandles, qAt, jsDiv, jsMul, jsAdd, jsSub, jsNeg,
      List.range, List.range.loop, List.replicate, List.getElem_cons_succ, List.getElem_cons_zero]
  · norm_num [rsiWilderSpecValues, rsiWilderGo, rsiSeedGain, rsiSeedLoss,
      rsiGains, rsiLosses, candlePairs, rsiDemoCandles, jsDiv, jsMul, jsAdd, jsSub, jsNeg]
  · norm_num [calculateRSI, rsiValueAt, rsiAvgGainAt, rsiAvgLossAt, rsiSeedGain, rsiSeedLoss,
      rsiGains, rsiLosses, candlePairs, rsiDemoCandles, qAt, jsDiv, jsMul, jsAdd, jsSub, jsNeg,
      List.range, List.range.loop, List.replicate, List.getElem_cons_succ, List.getElem_cons_zero]

/-- C2: evaluation showing `calculateADX` output is not padded to the
candle-sequence length: three candles produce only two ADX entries. -/
theorem C2_adx_output_unpadded :
    (calculateADX adxDemoCandles 14).length = 2 ∧ adxDemoCandles.length = 3 :=
  ⟨rfl, rfl⟩

/-- C7: when the smoothed average loss at a loop step is 0 and the smoothed
average gain is a positive number, `rs` is positive infinity and the emitted
RSI value is exactly 100 (the computation is total, so no error is
raised). -/
theorem C7_rsi_saturation (data : List Candle) (L i : ℕ) (a : ℚ)
    (hloss : rsiAvgLossAt data L i = .num 0) (hgain : rsiAvgGainAt data L i = .num a)
    (ha : 0 < a) :
    jsDiv (rsiAvgGainAt data L i) (rsiAvgLossAt data L i) = .inf true ∧
    rsiValueAt data L i = .num 100 ∧
    (L ≤ i → i < data.length → (calculateRSI data L).getD i none = some (.num 100)) := by
  have hrs : jsDiv (rsiAvgGainAt data L i) (rsiAvgLossAt data L i) = .inf true := by
    rw [hloss, hgain]
    simp [jsDiv, ha, ha.ne']
  have hval : rsiValueAt data L i = .num 100 := by
    simp only [rsiValueAt, hrs]
    norm_num [jsAdd, jsDiv, jsSub, jsNeg]
  exact ⟨hrs, hval, fun hLi hin => by rw [calculateRSI_getD data L i hLi hin, hval]⟩

/-- C7 witness: four strictly rising closes with `length = 2`: at loop index
2 the smoothed average loss is 0, the smoothed average gain is 1, and the
RSI output at index 2 is exactly 100. -/
theorem C7_rsi_saturation_witness :
    rsiValueAt risingCandles4 2 2 = .num 100 ∧
    (calculateRSI risingCandles4 2).getD 2 none = some (.num 100) := by
  have hloss : rsiAvgLossAt risingCandles4 2 2 = .num 0 := by
    norm_num [rsiAvgLossAt, rsiSeedLoss, rsiLosses, candlePairs, risingCandles4, qAt,
      jsDiv, jsMul, jsAdd, jsSub, jsNeg]
  have hgain : rsiAvgGainAt risingCandles4 2 2 = .num 1 := by
    norm_num [rsiAvgGainAt, rsiSeedGain, rsiGains, candlePairs, risingCandles4, qAt,
      jsDiv, jsMul, jsAdd, jsSub, jsNeg]
  have h := C7_rsi_saturation risingCandles4 2 2 1 hloss hgain (by norm_num)
  exact ⟨h.2.1, h.2.2 (by norm_num) (by norm_num [risingCandles4])⟩

/-- C8: the recorded directional movements are mutually exclusive: the
`plusDM` entry is 0 whenever the raw plus movement does not strictly exceed
the raw minus movement or is not positive (symmetrically for `minusDM`),
and at no index are both recorded entries nonzero. -/
theorem C8_adx_dm_exclusive :
    (∀ p c : Candle,
      ¬(c.high - p.high > p.low - c.low ∧ c.high - p.high > 0) → plusDMval p c = 0) ∧
    (∀ p c : Candle,
      ¬(p.low - c.low > c.high - p.high ∧ p.low - c.low > 0) → minusDMval p c = 0) ∧
    (∀ p c : Candle, ¬(plusDMval p c ≠ 0 ∧ minusDMval p c ≠ 0)) ∧
    (∀ (data : List Candle) (i : ℕ),
      (plusDMs data).getD i 0 = 0 ∨ (minusDMs data).getD i 0 = 0) := by
  have hone : ∀ p c : Candle, plusDMval p c = 0 ∨ minusDMval p c = 0 := by
    intro p c
    by_cases hb : c.high - p.high > p.low - c.low ∧ c.high - p.high > 0
    · right
      rw [minusDMval, if_neg]
      intro hm
      linarith [hb.1, hm.1]
    · left
      exact if_neg hb
  refine ⟨fun p c h => if_neg h, fun p c h => if_neg h, ?_, ?_⟩
  · intro p c h
    rcases hone p c with h0 | h0 <;> [exact h.1 h0; exact h.2 h0]
  · intro data i
    rw [List.getD_eq_getElem?_getD, List.getD_eq_getElem?_getD, plusDMs, minusDMs,
      List.getElem?_map _ _ i, List.getElem?_map _ _ i]
    cases hpc : (candlePairs data)[i]? with
    | none => simp
    | some pc =>
      simpa using hone pc.1 pc.2

/-- C8 witness: a rising step records `plusDM = 1` and `minusDM = 0`, and a
candle step with equal raw movements records `plusDM = 0`. -/
theorem C8_adx_dm_exclusive_witness :
    ((plusDMs adxDemoCandles).getD 0 0 = 0 ∨ (minusDMs adxDemoCandles).getD 0 0 = 0) ∧
    plusDMval ⟨0, 1, 2, 0⟩ ⟨1, 1, 2, 0⟩ = 0 := by
  refine ⟨C8_adx_dm_exclusive.2.2.2 adxDemoCandles 0, ?_⟩
  exact C8_adx_dm_exclusive.1 _ _ (by norm_num)

/-- C9: for every candle sequence longer than `length`, the final RSI loop
iteration reads the gain/loss arrays (of length `candles.length - 1`) at
position `candles.length - 1`, one past their end; the resulting
`undefined` propagates through the smoothing arithmetic and the last
element of the RSI output is NaN. -/
theorem C9_rsi_last_nan (data : List Candle) (L : ℕ) (h : L < data.length) :
    (rsiGains data).length = data.length - 1 ∧
    qAt (rsiGains data) (data.length - 1) = .undefined ∧
    (calculateRSI data L).getD (data.length - 1) none = some JsNum.nan := by
  have hlen : (rsiGains data).length = data.length - 1 := by
    simp only [rsiGains, candlePairs, List.length_map, List.length_zip, List.length_tail]
    omega
  have hq : qAt (rsiGains data) (data.length - 1) = .undefined := by
    rw [qAt, List.getElem?_eq_none (by omega)]
  have hGain : rsiAvgGainAt data L (data.length - 1) = .nan := by
    rw [rsiAvgGainAt, hq, jsAdd_undef_right]
    rfl
  have hval : rsiValueAt data L (data.length - 1) = .nan := by
    rw [rsiValueAt, hGain, jsDiv_nan_left, jsAdd_nan_right, jsDiv_nan_right]
    rfl
  refine ⟨hlen, hq, ?_⟩
  rw [calculateRSI_getD data L (data.length - 1) (by omega) (by omega), hval]

/-- C9 witness: three rising candles with `length = 1`: the RSI output ends
with NaN. -/
theorem C9_rsi_last_nan_witness :
    (calculateRSI risingCandles 1).getD 2 none = some JsNum.nan :=
  (C9_rsi_last_nan risingCandles 1 (by norm_num [risingCandles])).2.2

end CriptoApp
